import Mathlib

/-!
Verification of the chat server's room/client core and auth boundary
(repository law-lee/chat_server).

The Go source is embedded shallowly: machine-level concerns (goroutine
scheduling, real sockets) are replaced by explicit traces of events; a
Go function that can panic is embedded as an Option-valued function
where `none` marks the panic.
-/

/-- A dynamically typed Go value as stored in `client.userData`
(`map[string]interface{}`, src/client.go:19).  Only string payloads are
observable in the embedded code paths; every non-string value is
collapsed into `other`, which is exactly the class of values on which
the type assertions `.(string)` of src/client.go panic. -/
inductive GoValue where
  | str (s : String)
  | other
deriving DecidableEq

/-- Modelled from the spec: the `message` struct (message.go is not under
src/).  Spec section 3 gives the record `{Name, Text, When, AvatarURL}`;
the field names match their uses in src/client.go (msg.When, msg.Name,
msg.AvatarURL).  `When` is an abstract timestamp. -/
structure message where
  Name : String
  Text : String
  When : Nat
  AvatarURL : String
deriving DecidableEq

/-- Outcome of one `c.socket.ReadJSON(&msg)` call (src/client.go:26):
either a decoded message or a failure (decode error or orderly close). -/
inductive DecodeResult where
  | ok (m : message)
  | fail
deriving DecidableEq

/-- The stamping step of `client.read` on one successfully decoded
message (src/client.go:30-41): sets `When` to the current time, then
`Name` from the unchecked type assertion `c.userData["name"].(string)`,
then `AvatarURL` from `c.userData["avatar_url"].(string)` when that key
is present.  `none` is the panic of a failed type assertion (missing
key yields a nil interface, which also fails `.(string)`). -/
def stampMessage (userData : List (String × GoValue)) (now : Nat)
    (msg : message) : Option message :=
  match userData.lookup "name" with
  | some (GoValue.str name) =>
    let msg1 := { msg with When := now, Name := name }
    match userData.lookup "avatar_url" with
    | some (GoValue.str a) => some { msg1 with AvatarURL := a }
    | some GoValue.other => none
    | none => some msg1
  | _ => none

/-- Observable outcome of running the receive pump over a finite trace
of decode results.  `forwarded` lists the messages sent into
`c.room.forward` in order; `panicked` records a failed type assertion;
`socketClosed` records that the deferred `c.closeSocket()` ran;
`terminated` records a clean `return` of the loop. -/
structure ReadOutcome where
  forwarded : List message
  panicked : Bool
  socketClosed : Bool
  terminated : Bool
deriving DecidableEq

/-- The receive pump `client.read` (src/client.go:22-44) over a finite
trace of decode results, each paired with the value of `time.Now()` at
that iteration.  On a decode failure the loop returns and the deferred
`closeSocket` runs.  On a panic of `stampMessage` the deferred
`closeSocket` still runs (Go runs deferred calls while panicking) but
the pump did not terminate cleanly.  An exhausted trace means the pump
is still blocked in `ReadJSON`: nothing closed, nothing terminated. -/
def clientRead (userData : List (String × GoValue)) :
    List (DecodeResult × Nat) → ReadOutcome
  | [] => ⟨[], false, false, false⟩
  | (DecodeResult.fail, _) :: _ => ⟨[], false, true, true⟩
  | (DecodeResult.ok m, now) :: rest =>
    match stampMessage userData now m with
    | none => ⟨[], true, true, false⟩
    | some m1 =>
      let o := clientRead userData rest
      { o with forwarded := m1 :: o.forwarded }

/-- Outcome of a client's connection-handling call: the receive pump's
outcome plus whether a leave request reached the room. -/
structure ServeOutcome where
  read : ReadOutcome
  leaveIssued : Bool
deriving DecidableEq

/-- Modelled from the spec: `room.ServeHTTP` (room.go, not under src/)
runs the receive pump in the handler goroutine with a deferred
unregistration, spec section 2: "on any read/write failure the Client
unregisters via the leave channel".  The deferred leave runs whenever
`client.read` stops, whether by clean return or by panic. -/
def serveClient (userData : List (String × GoValue))
    (inbound : List (DecodeResult × Nat)) : ServeOutcome :=
  let o := clientRead userData inbound
  ⟨o, o.terminated || o.panicked⟩

/-- Observable outcome of running the send pump: `written` lists the
messages successfully encoded onto the connection in order;
`terminated` records that the loop exited (rather than blocking on an
open, drained mailbox); `socketClosed` records the deferred
`closeSocket`; `leaveIssued` records whether this pump sent any leave
request to the room (it never does). -/
structure SendOutcome where
  written : List message
  terminated : Bool
  socketClosed : Bool
  leaveIssued : Bool
deriving DecidableEq

/-- The send pump `client.write` (src/client.go:45-53): `for msg :=
range c.send` takes one message at a time from the mailbox; `ok i`
tells whether the i-th `WriteJSON` call succeeds; on a write error the
loop breaks.  The mailbox is a finite queue `mailbox` plus a flag
`closed` saying whether the channel has been closed: ranging over a
closed drained channel ends the loop, while an open drained channel
blocks the pump forever (no termination, no deferred close yet). -/
def clientWrite (ok : Nat → Bool) : Nat → List message → Bool → SendOutcome
  | _, [], closed => if closed then ⟨[], true, true, false⟩ else ⟨[], false, false, false⟩
  | i, m :: rest, closed =>
    if ok i then
      let o := clientWrite ok (i + 1) rest closed
      { o with written := m :: o.written }
    else ⟨[], true, true, false⟩

/-- The close state of a client's websocket connection. -/
structure Socket where
  closed : Bool
deriving DecidableEq

/-- The websocket library's `Conn.Close` (external collaborator of
src/client.go): closing an open connection releases the underlying
resource and returns no error; closing an already-closed connection
returns an error and performs no further release. -/
def connClose (s : Socket) : Socket × Option String :=
  if s.closed then (s, some "use of closed network connection")
  else ({ closed := true }, none)

/-- The guard `client.closeSocket` (src/client.go:55-59): calls
`c.socket.Close()` and, when that errs, prints the error; the error
never propagates and the call never fails. -/
def closeSocket (s : Socket) : Socket × List String :=
  match connClose s with
  | (s1, none) => (s1, [])
  | (s1, some e) => (s1, ["close socket err: " ++ e])

/-- Runs n successive `closeSocket` calls against one socket (the calls
the two pumps make via their deferred `closeSocket`, in whichever order
they stop) and counts the calls that actually released the connection,
that is the calls whose inner `Conn.Close` returned no error. -/
def closeSeq : Socket → Nat → Socket × Nat
  | s, 0 => (s, 0)
  | s, n + 1 =>
    let r := closeSeq (closeSocket s).1 n
    (r.1, (if (connClose s).2 = none then 1 else 0) + r.2)

/-- One request processed by the room's control loop, clients named by
abstract identifiers. -/
inductive RoomEvent where
  | join (c : Nat)
  | leave (c : Nat)
  | forward (m : message)
deriving DecidableEq

/-- Modelled from the spec: one step of the room's `run` control loop
(room.go is not under src/).  Spec section 4.1: on join, add the client
to the member set; on leave, remove it (removing an absent client is a
no-op); a forward broadcasts but does not change membership. -/
def roomStep (members : Finset Nat) : RoomEvent → Finset Nat
  | RoomEvent.join c => insert c members
  | RoomEvent.leave c => members.erase c
  | RoomEvent.forward _ => members

/-- Modelled from the spec: the member set after the room's control
loop, started with no members, has processed a finite sequence of
requests in order. -/
def roomRun (evts : List RoomEvent) : Finset Nat :=
  evts.foldl roomStep ∅

/-- Modelled from the spec: the user-like value the avatar chain
consumes (the ChatUser capability set of spec section 4.3 and
section 9: uniqueID plus the session-embedded avatar URL, absent when
the session carries none). -/
structure ChatUser where
  uniqueID : String
  avatarURL : Option String
deriving DecidableEq

/-- Modelled from the spec: the answer of one avatar strategy, spec
section 4.3: a URL, or the distinct signals "not applicable" and hard
failure, both of which make the chain move on. -/
inductive AvatarResult where
  | url (u : String)
  | noAvatar
  | failed
deriving DecidableEq

/-- An avatar resolution strategy. -/
abbrev AvatarStrategy := ChatUser → AvatarResult

/-- Modelled from the spec: the file-system strategy (avatar.go is not
under src/), spec section 4.3 (a): an on-disk file named by the user's
unique id; `files` maps a unique id to the served URL of such a file
when one exists. -/
def UseFileSystemAvatar (files : String → Option String) : AvatarStrategy :=
  fun u =>
    match files u.uniqueID with
    | some f => AvatarResult.url f
    | none => AvatarResult.noAvatar

/-- Modelled from the spec: the session strategy, spec section 4.3 (b):
the URL embedded in the authenticated session, not applicable when
absent. -/
def UseAuthAvatar : AvatarStrategy :=
  fun u =>
    match u.avatarURL with
    | some a => AvatarResult.url a
    | none => AvatarResult.noAvatar

/-- Modelled from the spec: the remote fallback strategy, spec
section 4.3 (c): a hash-derived avatar service URL, always produced. -/
def UseGravatar : AvatarStrategy :=
  fun u => AvatarResult.url ("//www.gravatar.com/avatar/" ++ u.uniqueID)

/-- An ordered chain of avatar strategies (the TryAvatars slice type). -/
abbrev TryAvatars := List AvatarStrategy

/-- Modelled from the spec: TryAvatars.GetAvatarURL (avatar.go is not
under src/), spec section 4.3: try each strategy in order, return the
first URL produced, and the terminal "no avatar available" error when
every strategy was not-applicable or failed. -/
def TryAvatars.GetAvatarURL : TryAvatars → ChatUser → Except String String
  | [], _ => Except.error "chat: unable to get an avatar URL"
  | s :: rest, u =>
    match s u with
    | AvatarResult.url x => Except.ok x
    | _ => TryAvatars.GetAvatarURL rest u

/-- The active avatar chain of src/main.go:21-25: file system, then
session, then the remote fallback, in that order. -/
def avatars (files : String → Option String) : TryAvatars :=
  [UseFileSystemAvatar files, UseAuthAvatar, UseGravatar]

/-- Outcome of `r.Cookie("auth")` in the auth guard (src/auth.go:58):
the cookie is present, or the lookup returned `http.ErrNoCookie`, or it
returned some other error. -/
inductive CookieResult where
  | present (v : String)
  | noCookie
  | otherError (e : String)
deriving DecidableEq

/-- What the guard does with one request: write its own response
(status, optional Location header, optional body) or delegate to the
wrapped handler. -/
inductive AuthResult where
  | respond (status : Nat) (location : Option String) (body : Option String)
  | delegate
deriving DecidableEq

/-- The guard `authHandler.ServeHTTP` (src/auth.go:57-72): no cookie
means a 307 redirect to /login; any other cookie error means a 500 with
the error text; otherwise the wrapped handler runs. -/
def authServeHTTP : CookieResult → AuthResult
  | CookieResult.noCookie => AuthResult.respond 307 (some "/login") none
  | CookieResult.otherError e => AuthResult.respond 500 none (some e)
  | CookieResult.present _ => AuthResult.delegate

/-- Go's strings.Split with separator "/" (stdlib collaborator of
src/auth.go:80), at the character level: splitting an empty list gives
one empty piece, and each '/' starts a new piece. -/
def splitSlashChars : List Char → List (List Char)
  | [] => [[]]
  | ch :: rest =>
    if ch = '/' then [] :: splitSlashChars rest
    else
      match splitSlashChars rest with
      | [] => [[ch]]
      | h :: t => (ch :: h) :: t

/-- strings.Split(path, "/") as used by loginHandler (src/auth.go:80). -/
def goSplitSlash (s : String) : List String :=
  (splitSlashChars s.toList).map (fun l => String.mk l)

/-- The basic user data an OAuth provider returns (the gomniauth User
collaborator of src/auth.go): display name, email, avatar URL. -/
structure GomniUser where
  name : String
  email : String
  avatarURL : String
deriving DecidableEq

/-- The struct `chatUser` of src/auth.go:32-35: the embedded provider
user plus the md5-derived unique id assigned at src/auth.go:133. -/
structure chatUser where
  user : GomniUser
  uniqueID : String
deriving DecidableEq

/-- One OAuth provider object (gomniauth collaborator): the operations
loginHandler calls on it, each fallible. -/
structure ProviderM where
  getBeginAuthURL : Except String String
  completeAuth : List (String × String) → Except String (List (String × String))
  getUser : List (String × String) → Except String GomniUser

/-- The external collaborators loginHandler runs against:
gomniauth.Provider lookup, the md5-of-lowercased-email hex digest of
src/auth.go:131-133, the avatar chain `avatars.GetAvatarURL`
(src/main.go:22, src/auth.go:134), and objx.MustFromURLQuery, whose
panic on a malformed query is `none`. -/
structure AuthEnv where
  provider : String → Except String ProviderM
  md5LowerHex : String → String
  getAvatarURL : chatUser → Except String String
  parseURLQuery : String → Option (List (String × String))

/-- One HTTP-level outcome of loginHandler: an error status with a
body, a 307 redirect (optionally setting the auth cookie payload), the
404 of an unknown action, or `fatalExit` — log.Fatalln, which writes
the log line and terminates the whole server process. -/
inductive HttpOut where
  | httpError (status : Nat) (body : String)
  | redirect (status : Nat) (location : String) (cookie : Option (List (String × String)))
  | notFound (body : String)
  | fatalExit (logMsg : String)
deriving DecidableEq

/-- loginHandler (src/auth.go:79-154).  The result is `none` when the
handler panics: indexing segs[2] or segs[3] out of range
(src/auth.go:81-82) or objx.MustFromURLQuery on a bad query
(src/auth.go:109).  Error-message strings follow the fmt.Sprintf
formats of the source with the provider and error rendered as text. -/
def loginHandler (env : AuthEnv) (path rawQuery : String) : Option HttpOut :=
  let segs := goSplitSlash path
  match segs[2]? with
  | none => none
  | some action =>
    match segs[3]? with
    | none => none
    | some providerName =>
      match action with
      | "login" =>
        match env.provider providerName with
        | Except.error e =>
          some (HttpOut.httpError 400
            ("Error when trying to get provider " ++ providerName ++ ": " ++ e))
        | Except.ok p =>
          match p.getBeginAuthURL with
          | Except.error e =>
            some (HttpOut.httpError 500
              ("Error when trying to GetBeginAuthURL for " ++ providerName ++ ":" ++ e))
          | Except.ok loginUrl => some (HttpOut.redirect 307 loginUrl none)
      | "callback" =>
        match env.provider providerName with
        | Except.error e =>
          some (HttpOut.httpError 400
            ("Error when trying to get provider " ++ providerName ++ ": " ++ e))
        | Except.ok p =>
          match env.parseURLQuery rawQuery with
          | none => none
          | some q =>
            match p.completeAuth q with
            | Except.error e =>
              some (HttpOut.httpError 500
                ("Error when trying to complete auth for " ++ providerName ++ ": " ++ e))
            | Except.ok creds =>
              match p.getUser creds with
              | Except.error e =>
                some (HttpOut.httpError 500
                  ("Error when trying to get user from " ++ providerName ++ ": " ++ e))
              | Except.ok user =>
                let cu : chatUser := { user := user, uniqueID := env.md5LowerHex user.email }
                match env.getAvatarURL cu with
                | Except.error e =>
                  some (HttpOut.fatalExit ("Error when trying to GetAvatarURL - " ++ e))
                | Except.ok avatarURL =>
                  some (HttpOut.redirect 307 "/chat"
                    (some [("userid", cu.uniqueID), ("name", user.name),
                           ("avatar_url", avatarURL), ("email", user.email)]))
      | _ => some (HttpOut.notFound ("Auth action " ++ action ++ " not supported"))

lemma clientRead_fail_fields (userData : List (String × GoValue))
    (pre : List (message × Nat)) (t : Nat) (rest : List (DecodeResult × Nat))
    (hpre : ∀ p ∈ pre, (stampMessage userData p.2 p.1).isSome = true) :
    (clientRead userData
        (pre.map (fun p => (DecodeResult.ok p.1, p.2)) ++ (DecodeResult.fail, t) :: rest)).terminated = true ∧
    (clientRead userData
        (pre.map (fun p => (DecodeResult.ok p.1, p.2)) ++ (DecodeResult.fail, t) :: rest)).socketClosed = true ∧
    (clientRead userData
        (pre.map (fun p => (DecodeResult.ok p.1, p.2)) ++ (DecodeResult.fail, t) :: rest)).panicked = false := by
  induction pre with
  | nil => simp [clientRead]
  | cons p ps ih =>
    have hp := hpre p (by simp)
    obtain ⟨m1, hm1⟩ := Option.isSome_iff_exists.mp hp
    simp only [List.map_cons, List.cons_append, clientRead, hm1]
    exact ih (fun q hq => hpre q (by simp [hq]))

/-- C1: when the receive pump's decode of one inbound message fails
(including orderly close), the client unregisters from the room (a
leave request is issued by the deferred unregistration of the
connection handler), the connection is released by the deferred
closeSocket, and the pump terminates. -/
theorem receive_failure_unregisters_and_releases
    (userData : List (String × GoValue)) (pre : List (message × Nat)) (t : Nat)
    (rest : List (DecodeResult × Nat))
    (hpre : ∀ p ∈ pre, (stampMessage userData p.2 p.1).isSome = true) :
    (serveClient userData
        (pre.map (fun p => (DecodeResult.ok p.1, p.2)) ++ (DecodeResult.fail, t) :: rest)).read.terminated = true ∧
    (serveClient userData
        (pre.map (fun p => (DecodeResult.ok p.1, p.2)) ++ (DecodeResult.fail, t) :: rest)).read.socketClosed = true ∧
    (serveClient userData
        (pre.map (fun p => (DecodeResult.ok p.1, p.2)) ++ (DecodeResult.fail, t) :: rest)).leaveIssued = true := by
  obtain ⟨h1, h2, h3⟩ := clientRead_fail_fields userData pre t rest hpre
  refine ⟨?_, ?_, ?_⟩ <;> simp [serveClient, h1, h2, h3]

/-- Witness for C1: a lone decode failure triggers unregistration. -/
theorem receive_failure_witness :
    (serveClient [] [(DecodeResult.fail, 0)]).leaveIssued = true := by
  have h := receive_failure_unregisters_and_releases [] [] 0 [] (by simp)
  simpa using h.2.2

lemma closeSeq_closed (n : Nat) : closeSeq ⟨true⟩ n = (⟨true⟩, 0) := by
  induction n with
  | zero => rfl
  | succ m ih => simp [closeSeq, closeSocket, connClose, ih]

/-- C3: closeSocket is safe to call from either pump, and however many
times the pumps call it (each calls it once when it stops), the
underlying connection is actually released exactly once, by the first
call; afterwards the socket is closed. -/
theorem close_released_exactly_once (n : Nat) (h : 1 ≤ n) :
    (closeSeq ⟨false⟩ n).2 = 1 ∧ ((closeSeq ⟨false⟩ n).1).closed = true := by
  obtain ⟨m, rfl⟩ : ∃ m, n = m + 1 := ⟨n - 1, by omega⟩
  simp [closeSeq, closeSocket, connClose, closeSeq_closed]

/-- Witness for C3: the two pumps' close calls release once. -/
theorem close_released_witness : (closeSeq ⟨false⟩ 2).2 = 1 :=
  (close_released_exactly_once 2 (by omega)).1

/-- C6: the guard redirects to /login (status 307, not an error
response, not the wrapped content) when no session cookie is present,
answers 500 (no redirect) on any other cookie error, and delegates to
the wrapped handler otherwise. -/
theorem auth_gate_cases :
    (authServeHTTP CookieResult.noCookie = AuthResult.respond 307 (some "/login") none ∧
      authServeHTTP CookieResult.noCookie ≠ AuthResult.delegate) ∧
    (∀ e, authServeHTTP (CookieResult.otherError e) = AuthResult.respond 500 none (some e)) ∧
    (∀ v, authServeHTTP (CookieResult.present v) = AuthResult.delegate) :=
  ⟨⟨rfl, by simp [authServeHTTP]⟩, fun _ => rfl, fun _ => rfl⟩

/-- Witness for C6: a present cookie delegates to the wrapped handler. -/
theorem auth_gate_witness :
    authServeHTTP (CookieResult.present "tok") = AuthResult.delegate :=
  auth_gate_cases.2.2 "tok"

/-- C9: when userData has no string-valued "name" entry, processing a
successfully decoded message panics (failed type assertion) instead of
terminating the pump cleanly. -/
theorem read_panics_without_string_name (userData : List (String × GoValue))
    (msg : message) (now : Nat) (rest : List (DecodeResult × Nat))
    (hname : ∀ s, userData.lookup "name" ≠ some (GoValue.str s)) :
    (clientRead userData ((DecodeResult.ok msg, now) :: rest)).panicked = true ∧
    (clientRead userData ((DecodeResult.ok msg, now) :: rest)).terminated = false := by
  have hstamp : stampMessage userData now msg = none := by
    cases hv : userData.lookup "name" with
    | none => simp [stampMessage, hv]
    | some v =>
      cases v with
      | str s => exact absurd hv (hname s)
      | other => simp [stampMessage, hv]
  simp [clientRead, hstamp]

/-- Witness for C9: empty userData makes the first decoded message
panic the receive pump. -/
theorem read_panics_witness :
    (clientRead [] [(DecodeResult.ok ⟨"", "", 0, ""⟩, 0)]).panicked = true :=
  (read_panics_without_string_name [] ⟨"", "", 0, ""⟩ 0 []
    (fun s h => by simp at h)).1

/-- C10: a request path with fewer than four "/"-separated segments
makes loginHandler panic (index out of range) instead of writing an
HTTP response. -/
theorem loginHandler_short_path_panics (env : AuthEnv) (path rawQuery : String)
    (h : (goSplitSlash path).length < 4) :
    loginHandler env path rawQuery = none := by
  have h3 : (goSplitSlash path)[3]? = none := by
    rw [List.getElem?_eq_none_iff]
    omega
  cases h2 : (goSplitSlash path)[2]? with
  | none => simp [loginHandler, h2]
  | some a => simp [loginHandler, h2, h3]

/-- An environment with no working collaborators, for exercising the
panic path of loginHandler. -/
def stubAuthEnv : AuthEnv :=
  { provider := fun _ => Except.error "unsupported"
    md5LowerHex := fun _ => ""
    getAvatarURL := fun _ => Except.error "chat: unable to get an avatar URL"
    parseURLQuery := fun _ => none }

/-- Witness for C10: the path "/auth/login" (three segments) panics. -/
theorem loginHandler_short_path_witness :
    loginHandler stubAuthEnv "/auth/login" "" = none :=
  loginHandler_short_path_panics stubAuthEnv "/auth/login" "" (by decide)

/-- C7: a successfully decoded message is forwarded to the room with
When stamped to the current time (hence no earlier than send time),
Name overwritten with the session-derived name, AvatarURL overwritten
exactly when an avatar_url entry is present, and Text unchanged. -/
theorem read_stamps_and_forwards (userData : List (String × GoValue))
    (name : String) (msg : message) (now sendTime : Nat)
    (rest : List (DecodeResult × Nat))
    (hname : userData.lookup "name" = some (GoValue.str name))
    (havatar : userData.lookup "avatar_url" = none ∨
      ∃ a, userData.lookup "avatar_url" = some (GoValue.str a))
    (htime : sendTime ≤ now) :
    ∃ m1, (clientRead userData ((DecodeResult.ok msg, now) :: rest)).forwarded.head? = some m1 ∧
      m1.When = now ∧ sendTime ≤ m1.When ∧ m1.Name = name ∧ m1.Text = msg.Text ∧
      (userData.lookup "avatar_url" = none → m1.AvatarURL = msg.AvatarURL) ∧
      (∀ a, userData.lookup "avatar_url" = some (GoValue.str a) → m1.AvatarURL = a) := by
  rcases havatar with hav | ⟨a, hav⟩
  · refine ⟨{ msg with When := now, Name := name }, ?_, rfl, htime, rfl, rfl,
      fun _ => rfl, ?_⟩
    · simp [clientRead, stampMessage, hname, hav]
    · intro a' ha'
      rw [hav] at ha'
      cases ha'
  · refine ⟨{ msg with When := now, Name := name, AvatarURL := a }, ?_, rfl, htime,
      rfl, rfl, ?_, ?_⟩
    · simp [clientRead, stampMessage, hname, hav]
    · intro h0
      rw [hav] at h0
      cases h0
    · intro a' ha'
      rw [hav] at ha'
      simp only [Option.some.injEq, GoValue.str.injEq] at ha'
      simpa using ha'

/-- Witness for C7: a concrete client and message produce a forwarded
message. -/
theorem read_stamps_witness :
    ((clientRead [("name", GoValue.str "alice")]
        [(DecodeResult.ok ⟨"x", "hi", 0, "u"⟩, 5)]).forwarded.head?).isSome = true := by
  obtain ⟨m1, hm1, -⟩ := read_stamps_and_forwards [("name", GoValue.str "alice")]
    "alice" ⟨"x", "hi", 0, "u"⟩ 5 3 [] (by decide) (Or.inl (by decide)) (by omega)
  simp [hm1]

/-- An environment whose provider handshake succeeds but whose avatar
chain reports the terminal "no avatar available" error. -/
def avatarFailEnv : AuthEnv :=
  { provider := fun _ => Except.ok
      { getBeginAuthURL := Except.ok "https://provider.example/consent"
        completeAuth := fun _ => Except.ok [("access_token", "tkn")]
        getUser := fun _ => Except.ok
          { name := "Alice", email := "a@example.com", avatarURL := "" } }
    md5LowerHex := fun _ => "0cc175b9c0f1b6a831c399e269772661"
    getAvatarURL := fun _ => Except.error "chat: unable to get an avatar URL"
    parseURLQuery := fun _ => some [] }

/-- C5 (the code against the claim): on the login callback, when avatar
resolution fails, loginHandler reaches log.Fatalln and the whole server
process terminates; no local HTTP error response is written for that
request. -/
theorem login_callback_avatar_failure_is_fatal :
    loginHandler avatarFailEnv "/auth/callback/google" "" =
      some (HttpOut.fatalExit
        "Error when trying to GetAvatarURL - chat: unable to get an avatar URL") ∧
    (∀ s b, some (HttpOut.fatalExit
        "Error when trying to GetAvatarURL - chat: unable to get an avatar URL") ≠
      some (HttpOut.httpError s b)) :=
  ⟨by decide, fun s b h => by simp at h⟩

lemma clientWrite_leave (ok : Nat → Bool) (i : Nat) (mb : List message)
    (closed : Bool) : (clientWrite ok i mb closed).leaveIssued = false := by
  induction mb generalizing i with
  | nil => cases closed <;> simp [clientWrite]
  | cons m rest ih => by_cases h : ok i <;> simp [clientWrite, h, ih]

lemma clientWrite_socket (ok : Nat → Bool) (i : Nat) (mb : List message)
    (closed : Bool) :
    (clientWrite ok i mb closed).socketClosed = (clientWrite ok i mb closed).terminated := by
  induction mb generalizing i with
  | nil => cases closed <;> simp [clientWrite]
  | cons m rest ih => by_cases h : ok i <;> simp [clientWrite, h, ih]

lemma clientWrite_written_append (ok : Nat → Bool) (i : Nat) (mb : List message)
    (closed : Bool) : ∃ tail, mb = (clientWrite ok i mb closed).written ++ tail := by
  induction mb generalizing i with
  | nil => exact ⟨[], by cases closed <;> simp [clientWrite]⟩
  | cons m rest ih =>
    by_cases h : ok i
    · obtain ⟨tail, ht⟩ := ih (i + 1)
      exact ⟨tail, by simpa [clientWrite, h] using ht⟩
    · exact ⟨m :: rest, by simp [clientWrite, h]⟩

lemma clientWrite_terminated (ok : Nat → Bool) (mb : List message) (closed : Bool) :
    ∀ i, (clientWrite ok i mb closed).terminated = true ↔
      (closed = true ∨ ∃ k, k < mb.length ∧ ok (i + k) = false) := by
  induction mb with
  | nil => intro i; cases closed <;> simp [clientWrite]
  | cons m rest ih =>
    intro i
    by_cases h : ok i
    · have hrw : (clientWrite ok i (m :: rest) closed).terminated
          = (clientWrite ok (i + 1) rest closed).terminated := by
        simp [clientWrite, h]
      rw [hrw, ih (i + 1)]
      constructor
      · rintro (hc | ⟨k, hk, hko⟩)
        · exact Or.inl hc
        · refine Or.inr ⟨k + 1, by simp only [List.length_cons]; omega, ?_⟩
          rw [show i + (k + 1) = i + 1 + k by omega]
          exact hko
      · rintro (hc | ⟨k, hk, hko⟩)
        · exact Or.inl hc
        · cases k with
          | zero =>
            rw [Nat.add_zero] at hko
            exact absurd hko (by simp [h])
          | succ k' =>
            refine Or.inr ⟨k', by simp only [List.length_cons] at hk; omega, ?_⟩
            rw [show i + 1 + k' = i + (k' + 1) by omega]
            exact hko
    · have hrw : (clientWrite ok i (m :: rest) closed).terminated = true := by
        simp [clientWrite, h]
      rw [hrw]
      simp only [true_iff]
      exact Or.inr ⟨0, by simp, by simpa using h⟩

lemma clientWrite_take (ok : Nat → Bool) (mb : List message) (closed : Bool) :
    ∀ i k, k < mb.length → ok (i + k) = false → (∀ j, j < k → ok (i + j) = true) →
      (clientWrite ok i mb closed).written = mb.take k := by
  induction mb with
  | nil => intro i k hk; simp at hk
  | cons m rest ih =>
    intro i k hk hf hok
    cases k with
    | zero =>
      have h0 : ok i = false := by simpa using hf
      simp [clientWrite, h0]
    | succ k' =>
      have h0 : ok i = true := by simpa using hok 0 (Nat.succ_pos k')
      have hrec := ih (i + 1) k' (by simp only [List.length_cons] at hk; omega)
        (by rw [show i + 1 + k' = i + (k' + 1) by omega]; exact hf)
        (fun j hj => by
          rw [show i + 1 + j = i + (j + 1) by omega]
          exact hok (j + 1) (by omega))
      simp [clientWrite, h0, hrec]

/-- C4: the send pump writes the mailbox's messages one at a time in
order (what it wrote is an initial segment of the mailbox); it
terminates without further input exactly when the mailbox is closed or
some write fails; whenever it terminates the deferred closeSocket
releases the connection; it never unregisters from the room; and on the
first write failure it stops draining, leaving exactly the messages
before the failing one written. -/
theorem send_pump_behaviour (ok : Nat → Bool) (mb : List message) (closed : Bool) :
    (∃ tail, mb = (clientWrite ok 0 mb closed).written ++ tail) ∧
    ((clientWrite ok 0 mb closed).terminated = true ↔
      (closed = true ∨ ∃ k, k < mb.length ∧ ok k = false)) ∧
    (clientWrite ok 0 mb closed).socketClosed = (clientWrite ok 0 mb closed).terminated ∧
    (clientWrite ok 0 mb closed).leaveIssued = false ∧
    (∀ k, k < mb.length → ok k = false → (∀ j, j < k → ok j = true) →
      (clientWrite ok 0 mb closed).written = mb.take k) := by
  refine ⟨clientWrite_written_append ok 0 mb closed, ?_,
    clientWrite_socket ok 0 mb closed, clientWrite_leave ok 0 mb closed, ?_⟩
  · have h := clientWrite_terminated ok mb closed 0
    simpa using h
  · intro k hk hf hok
    exact clientWrite_take ok mb closed 0 k hk (by simpa using hf)
      (fun j hj => by simpa using hok j hj)

/-- Witness for C4: a failing first write leaves nothing written. -/
theorem send_pump_witness :
    (clientWrite (fun _ => false) 0 [⟨"a", "hi", 0, ""⟩] false).written = [] := by
  have h := (send_pump_behaviour (fun _ => false) [⟨"a", "hi", 0, ""⟩] false).2.2.2.2
    0 (by simp) rfl (fun j hj => absurd hj (by omega))
  simpa using h
lemma exists_split_cons (e : RoomEvent) (rest : List RoomEvent) (c : Nat) :
    (∃ pre post, e :: rest = pre ++ RoomEvent.join c :: post ∧ RoomEvent.leave c ∉ post) ↔
      ((e = RoomEvent.join c ∧ RoomEvent.leave c ∉ rest) ∨
        (∃ pre post, rest = pre ++ RoomEvent.join c :: post ∧ RoomEvent.leave c ∉ post)) := by
  constructor
  · rintro ⟨pre, post, heq, hnot⟩
    cases pre with
    | nil =>
      simp only [List.nil_append, List.cons.injEq] at heq
      exact Or.inl ⟨heq.1, heq.2 ▸ hnot⟩
    | cons p pre' =>
      simp only [List.cons_append, List.cons.injEq] at heq
      exact Or.inr ⟨pre', post, heq.2, hnot⟩
  · rintro (⟨h1, h2⟩ | ⟨pre, post, heq, hnot⟩)
    · exact ⟨[], rest, by simp [h1], h2⟩
    · exact ⟨e :: pre, post, by simp [heq], hnot⟩

lemma foldl_roomStep_mem (c : Nat) : ∀ (evts : List RoomEvent) (init : Finset Nat),
    c ∈ evts.foldl roomStep init ↔
      ((∃ pre post, evts = pre ++ RoomEvent.join c :: post ∧ RoomEvent.leave c ∉ post) ∨
        (c ∈ init ∧ RoomEvent.leave c ∉ evts)) := by
  intro evts
  induction evts with
  | nil =>
    intro init
    constructor
    · intro h
      exact Or.inr ⟨h, by simp⟩
    · rintro (⟨pre, post, heq, -⟩ | ⟨h, -⟩)
      · exact absurd heq (by simp)
      · exact h
  | cons e rest ih =>
    intro init
    rw [List.foldl_cons, ih (roomStep init e), exists_split_cons]
    generalize (∃ pre post, rest = pre ++ RoomEvent.join c :: post ∧
      RoomEvent.leave c ∉ post) = P
    cases e with
    | join d =>
      have h1 : c ∈ roomStep init (RoomEvent.join d) ↔ (c = d ∨ c ∈ init) := by
        simp [roomStep]
      have h2 : (RoomEvent.leave c ∉ RoomEvent.join d :: rest) ↔
          RoomEvent.leave c ∉ rest := by simp
      have h3 : (RoomEvent.join d = RoomEvent.join c) ↔ c = d := by
        simp [eq_comm]
      rw [h1, h2, h3]
      tauto
    | leave d =>
      have h1 : c ∈ roomStep init (RoomEvent.leave d) ↔ (c ≠ d ∧ c ∈ init) := by
        simp [roomStep]
      have h2 : (RoomEvent.leave c ∉ RoomEvent.leave d :: rest) ↔
          (c ≠ d ∧ RoomEvent.leave c ∉ rest) := by
        simp [not_or, eq_comm]
      have h3 : (RoomEvent.leave d = RoomEvent.join c) ↔ False := by simp
      rw [h1, h2, h3]
      tauto
    | forward m =>
      have h1 : c ∈ roomStep init (RoomEvent.forward m) ↔ c ∈ init := by
        simp [roomStep]
      have h2 : (RoomEvent.leave c ∉ RoomEvent.forward m :: rest) ↔
          RoomEvent.leave c ∉ rest := by simp
      have h3 : (RoomEvent.forward m = RoomEvent.join c) ↔ False := by simp
      rw [h1, h2, h3]
      tauto

/-- C2: after the control loop processes any finite sequence of
requests, a client is a member exactly when some processed join for it
has no later processed leave for it; and a leave of an absent client
leaves the member set unchanged. -/
theorem room_membership (evts : List RoomEvent) (c : Nat) :
    (c ∈ roomRun evts ↔
      ∃ pre post, evts = pre ++ RoomEvent.join c :: post ∧ RoomEvent.leave c ∉ post) ∧
    (∀ members : Finset Nat, c ∉ members →
      roomStep members (RoomEvent.leave c) = members) := by
  constructor
  · have h := foldl_roomStep_mem c evts ∅
    simpa [roomRun] using h
  · intro ms hms
    simp [roomStep, Finset.erase_eq_of_not_mem hms]

/-- Witness for C2: a processed join with no later leave of that client
yields membership. -/
theorem room_membership_witness :
    5 ∈ roomRun [RoomEvent.join 5, RoomEvent.leave 7] :=
  ((room_membership [RoomEvent.join 5, RoomEvent.leave 7] 5).1).mpr
    ⟨[], [RoomEvent.leave 7], rfl, by decide⟩

/-- C8: over the configured chain (file system, then session, then the
remote fallback) the result is the file-based URL when a file for the
user exists, otherwise the session-embedded URL when present, otherwise
the remote fallback URL; and in general a chain returns the terminal
"no avatar available" error exactly when every strategy in it produced
no URL (not-applicable or failed). -/
theorem avatar_chain_order (files : String → Option String) (u : ChatUser) :
    (TryAvatars.GetAvatarURL (avatars files) u =
      match files u.uniqueID with
      | some f => Except.ok f
      | none =>
        match u.avatarURL with
        | some a => Except.ok a
        | none => Except.ok ("//www.gravatar.com/avatar/" ++ u.uniqueID)) ∧
    (∀ chain : TryAvatars,
      TryAvatars.GetAvatarURL chain u = Except.error "chat: unable to get an avatar URL" ↔
        ∀ s ∈ chain, ∀ x, s u ≠ AvatarResult.url x) := by
  constructor
  · cases hf : files u.uniqueID with
    | some f =>
      simp [avatars, TryAvatars.GetAvatarURL, UseFileSystemAvatar, hf]
    | none =>
      cases ha : u.avatarURL with
      | some a =>
        simp [avatars, TryAvatars.GetAvatarURL, UseFileSystemAvatar, UseAuthAvatar, hf, ha]
      | none =>
        simp [avatars, TryAvatars.GetAvatarURL, UseFileSystemAvatar, UseAuthAvatar,
          UseGravatar, hf, ha]
  · intro chain
    induction chain with
    | nil => simp [TryAvatars.GetAvatarURL]
    | cons s rest ih =>
      cases hs : s u with
      | url x =>
        simp only [TryAvatars.GetAvatarURL, hs]
        constructor
        · intro h
          simp at h
        · intro h
          exact absurd hs (h s (List.mem_cons_self s rest) x)
      | noAvatar =>
        simp only [TryAvatars.GetAvatarURL, hs]
        rw [ih]
        constructor
        · intro h s' hs' x
          rcases List.mem_cons.mp hs' with rfl | hmem
          · rw [hs]
            intro hx
            cases hx
          · exact h s' hmem x
        · intro h s' hs' x
          exact h s' (List.mem_cons_of_mem s hs') x
      | failed =>
        simp only [TryAvatars.GetAvatarURL, hs]
        rw [ih]
        constructor
        · intro h s' hs' x
          rcases List.mem_cons.mp hs' with rfl | hmem
          · rw [hs]
            intro hx
            cases hx
          · exact h s' hmem x
        · intro h s' hs' x
          exact h s' (List.mem_cons_of_mem s hs') x

/-- A file store in which every user has an uploaded avatar file. -/
def demoFiles : String → Option String := fun _ => some "/avatars/42.png"

/-- Witness for C8: with an on-disk file present, the chain answers the
file-based URL even though the session holds one too. -/
theorem avatar_chain_witness :
    TryAvatars.GetAvatarURL (avatars demoFiles) ⟨"42", some "https://p.example/a.png"⟩ =
      Except.ok "/avatars/42.png" :=
  ((avatar_chain_order demoFiles ⟨"42", some "https://p.example/a.png"⟩).1).trans rfl
